import Mathlib

/-!
Shallow embedding of the compose OCI remote loader
(`pkg/remote` in the repository: `OCIRemoteLoaderEnabled`,
`NewOCIRemoteLoader`, `ociRemoteLoader.Accept`, `ociRemoteLoader.Load`).

Modelling conventions:
* byte strings are Lean `String`s; Go's `path[len(prefix):]` is `String.drop`
  (references are ASCII, where bytes and characters coincide), and the Go
  runtime panic on a string slice with the low bound past the end is the
  explicit result `LoadResult.panicked`;
* external collaborators (`reference.ParseDockerRef`,
  `storeutil.GetImageConfig`, the `imagetools` resolver, `json.Unmarshal`,
  `reference.WithDigest`) are parameters of the model, gathered in `Env`;
* the filesystem is explicit state: a list of existing directories and an
  association list from file path to content.  Each Go error check on a
  filesystem call (`os.Stat`, `os.MkdirAll`, `os.Create`, `File.Write`) is
  mirrored by a fault-injection field of `FS`, so every error branch of the
  source is a reachable branch of the model;
* the resolver calls issued are logged in order in `World.calls`.
-/

/-- A content digest, as in `go-digest`: algorithm and hex-encoded hash;
`Digest.Hex()` returns the `hex` part. -/
structure Digest where
  algo : String
  hex : String
deriving DecidableEq, Repr

/-- An OCI content descriptor (`v1.Descriptor`): media type, digest, size. -/
structure Descriptor where
  mediaType : String
  digest : Digest
  size : Nat
deriving DecidableEq, Repr

/-- An OCI image manifest (`v1.Manifest`): a config descriptor and an ordered
list of layer descriptors. -/
structure Manifest where
  config : Descriptor
  layers : List Descriptor
deriving DecidableEq, Repr

/-- Result of `os.Stat` as the code consumes it: success, a not-exist error
(`os.IsNotExist(err)` true), or any other error. -/
inductive StatRes where
  | ok
  | notExist
  | errOther
deriving DecidableEq, Repr

/-- The filesystem state, plus fault-injection switches mirroring the error
checks the source performs on each filesystem call. -/
structure FS where
  /-- Directories that exist. -/
  dirs : List String
  /-- File contents, keyed by path; the most recent binding is first. -/
  files : List (String × String)
  /-- Fault injection: `os.Stat` on this path fails with an error that is
  not not-exist. -/
  statErr : String → Bool
  /-- Fault injection: `os.MkdirAll` on this path fails. -/
  mkdirErr : String → Bool
  /-- Fault injection: `os.Create` on this path fails. -/
  createErr : String → Bool
  /-- A `Write` to this file fails when the file currently holds this many
  characters (lets a write fail only after earlier layers were written). -/
  writeErr : String → Nat → Bool

/-- Content of a file, empty if absent. -/
def FS.read (fs : FS) (p : String) : String :=
  ((fs.files.find? (fun kv => kv.1 = p)).map Prod.snd).getD ""

/-- Whether a file exists at the path. -/
def FS.hasFile (fs : FS) (p : String) : Bool :=
  fs.files.any (fun kv => kv.1 = p)

/-- Model of `os.Stat`: fault-injected error first, else existence of the
directory. -/
def FS.stat (fs : FS) (p : String) : StatRes :=
  if fs.statErr p then .errOther
  else if p ∈ fs.dirs then .ok
  else .notExist

/-- Model of `os.MkdirAll(p, 0o700)`. -/
def FS.mkdirAll (fs : FS) (p : String) : Except String FS :=
  if fs.mkdirErr p then .error "mkdir error"
  else .ok { fs with dirs := p :: fs.dirs }

/-- Model of `os.Create(p)`: creates or truncates the file to empty content. -/
def FS.create (fs : FS) (p : String) : Except String FS :=
  if fs.createErr p then .error "create error"
  else .ok { fs with files := (p, "") :: fs.files }

/-- Model of `f.Write(data)`: appends to the file. -/
def FS.write (fs : FS) (p : String) (data : String) : Except String FS :=
  if fs.writeErr p (fs.read p).length then .error "write error"
  else .ok { fs with files := (p, fs.read p ++ data) :: fs.files }

/-- External collaborators of the loader, as the source consumes them. -/
structure Env where
  /-- Model of `reference.ParseDockerRef`: the normalized `ref.String()` on
  success. -/
  parseDockerRef : String → Except String String
  /-- Model of `storeutil.GetImageConfig(dockerCli, nil)`. -/
  imageConfig : Except String Unit
  /-- Model of `resolver.Get(ctx, refStr)`: content bytes and descriptor. -/
  resolve : String → Except String (String × Descriptor)
  /-- Model of `json.Unmarshal` of manifest bytes into a `v1.Manifest`. -/
  unmarshal : String → Except String Manifest
  /-- Model of `reference.WithDigest(ref, dg)`: the digested reference
  string. -/
  withDigest : String → Digest → Except String String

/-- The loader's own state (`ociRemoteLoader`): cache root and offline flag.
The `dockerCli` handle is absorbed into `Env.imageConfig`. -/
structure OciRemoteLoader where
  cache : String
  offline : Bool

/-- Mutable world threaded through `Load`: the filesystem and the ordered log
of references passed to `resolver.Get`. -/
structure World where
  fs : FS
  calls : List String

/-- Outcome of `Load`: a path, a propagated error, or a Go runtime panic
(string slice out of bounds). -/
inductive LoadResult where
  | ok (path : String)
  | err (e : String)
  | panicked
deriving DecidableEq, Repr

/-- The scheme constant of the loader (`const` named like the scheme, value
`"oci://"`). -/
def scheme : String := "oci://"

/-- Model of `ociRemoteLoader.Accept`: `strings.HasPrefix` of the scheme
constant, which in Go is a length test plus equality of the leading slice. -/
def Accept (path : String) : Bool :=
  scheme.length ≤ path.length && path.take scheme.length == scheme

/-- `filepath.Join` for the clean, separator-free components used here. -/
def fjoin (a b : String) : String := a ++ "/" ++ b

/-- Characters of a path before its final `/` (empty when none remains). -/
def dirChars : List Char → List Char
  | [] => []
  | c :: cs => if '/' ∈ cs then c :: dirChars cs else []

/-- Model of `filepath.Dir` for the already-clean paths used here:
everything before the final path separator. -/
def filepathDir (p : String) : String :=
  ⟨dirChars p.data⟩

/-- Model of `xdg.CacheFile(rel)`: the per-user cache home joined with
`rel` (its parent directories are created as a side effect, which the model
omits). -/
def xdgCacheFile (cacheHome rel : String) : String := fjoin cacheHome rel

/-- Model of `NewOCIRemoteLoader`: the cache root is
`filepath.Dir(xdg.CacheFile("docker-compose/oci"))`, the trailing `oci`
being a throwaway filename chopped off again. -/
def NewOCIRemoteLoader (cacheHome : String) (offline : Bool) :
    OciRemoteLoader :=
  { cache := filepathDir (xdgCacheFile cacheHome (fjoin "docker-compose" "oci"))
    offline := offline }

/-- The media type a compose-project artifact's config descriptor must have. -/
def composeMediaType : String := "application/vnd.docker.compose.project"

/-- The separator written between consecutive layers. -/
def layerSep : String := "\n---\n"

/-- The `for i, layer := range descriptor.Layers` loop of `Load`: fetch each
layer blob by digested reference and append it to the compose file, writing
the separator first for every layer after the first. -/
def writeLayers (env : Env) (ref composeFile : String)
    (layers : List Descriptor) (i : Nat) (w : World) : LoadResult × World :=
  match layers with
  | [] => (.ok composeFile, w)
  | layer :: rest =>
    match env.withDigest ref layer.digest with
    | .error e => (.err e, w)
    | .ok digested =>
      let w := { w with calls := w.calls ++ [digested] }
      match env.resolve digested with
      | .error e => (.err e, w)
      | .ok (content, _) =>
        match (if i > 0 then w.fs.write composeFile layerSep
               else .ok w.fs : Except String FS) with
        | .error e => (.err e, w)
        | .ok fs =>
          match fs.write composeFile content with
          | .error e => (.err e, { w with fs := fs })
          | .ok fs => writeLayers env ref composeFile rest (i + 1)
              { w with fs := fs }

/-- Model of `ociRemoteLoader.Load`, step for step from the source. -/
def Load (g : OciRemoteLoader) (env : Env) (w : World) (path : String) :
    LoadResult × World :=
  if g.offline then
    (.ok "", w)
  else if path.length < scheme.length then
    -- `path[len(prefix):]` with `len(path) < len(prefix)` panics in Go
    (.panicked, w)
  else
    match env.parseDockerRef (path.drop scheme.length) with
    | .error e => (.err e, w)
    | .ok ref =>
      match env.imageConfig with
      | .error e => (.err e, w)
      | .ok _ =>
        let w := { w with calls := w.calls ++ [ref] }
        match env.resolve ref with
        | .error e => (.err e, w)
        | .ok (content, descriptor) =>
          let locDir := fjoin g.cache descriptor.digest.hex
          let composeFile := fjoin locDir "compose.yaml"
          match w.fs.stat locDir with
          | .ok => (.ok composeFile, w)
          | .errOther => (.ok composeFile, w)
          | .notExist =>
            match w.fs.mkdirAll locDir with
            | .error e => (.err e, w)
            | .ok fs =>
              match fs.create composeFile with
              | .error e => (.err e, { w with fs := fs })
              | .ok fs =>
                let w := { w with fs := fs }
                match env.unmarshal content with
                | .error e => (.err e, w)
                | .ok manifest =>
                  if manifest.config.mediaType ≠ composeMediaType then
                    (.err (ref ++ " is not a compose project OCI artifact, but "
                        ++ manifest.config.mediaType), w)
                  else
                    writeLayers env ref composeFile manifest.layers 0 w

/-- The composed document the spec describes: layer contents in order with
the separator between consecutive entries only. -/
def composeDoc : List String → String
  | [] => ""
  | [c] => c
  | c :: rest => c ++ layerSep ++ composeDoc rest

/-! ### Concrete instances used by witnesses and counterexamples -/

/-- A filesystem with nothing in it and no injected faults. -/
def emptyFS : FS :=
  { dirs := [], files := [],
    statErr := fun _ => false, mkdirErr := fun _ => false,
    createErr := fun _ => false, writeErr := fun _ _ => false }

/-- An empty world: empty filesystem, no resolver calls yet. -/
def w0 : World := { fs := emptyFS, calls := [] }

/-- The normalized reference string of the sample reference. -/
def refStr : String := "registry.example/app:v1"

/-- The sample reference as passed to `Load`. -/
def samplePath : String := "oci://registry.example/app:v1"

/-- Digest of the sample manifest. -/
def manifestDigest : Digest := ⟨"sha256", "d1"⟩

/-- First layer descriptor of the sample manifest. -/
def layerA : Descriptor :=
  ⟨"application/vnd.docker.compose.file+yaml", ⟨"sha256", "aa"⟩, 28⟩

/-- Second layer descriptor of the sample manifest. -/
def layerB : Descriptor :=
  ⟨"application/vnd.docker.compose.file+yaml", ⟨"sha256", "bb"⟩, 28⟩

/-- Content of the first sample layer (the spec's concrete scenario). -/
def contentA : String := "services:\n  a:\n    image: x\n"

/-- Content of the second sample layer (the spec's concrete scenario). -/
def contentB : String := "services:\n  b:\n    image: y\n"

/-- The sample two-layer compose-project manifest. -/
def sampleManifest : Manifest :=
  ⟨⟨composeMediaType, ⟨"sha256", "cfg"⟩, 3⟩, [layerA, layerB]⟩

/-- The digested reference of a layer in the sample environments. -/
def digested (l : Descriptor) : String :=
  refStr ++ "@" ++ l.digest.algo ++ ":" ++ l.digest.hex

/-- Content served by the sample resolver for each layer. -/
def layerContent (l : Descriptor) : String :=
  if l = layerA then contentA else contentB

/-- A well-behaved environment: the sample reference parses, the manifest
resolves to `sampleManifest`, and both layer blobs resolve. -/
def sampleEnv : Env :=
  { parseDockerRef := fun s =>
      if s = "registry.example/app:v1" then .ok refStr else .error "parse error"
    imageConfig := .ok ()
    resolve := fun r =>
      if r = refStr then
        .ok ("manifest-json",
          ⟨"application/vnd.oci.image.manifest.v1+json", manifestDigest, 99⟩)
      else if r = digested layerA then .ok (contentA, layerA)
      else if r = digested layerB then .ok (contentB, layerB)
      else .error "not found"
    unmarshal := fun s =>
      if s = "manifest-json" then .ok sampleManifest else .error "json error"
    withDigest := fun r dg => .ok (r ++ "@" ++ dg.algo ++ ":" ++ dg.hex) }

/-- A manifest whose config descriptor is not a compose project. -/
def badManifest : Manifest :=
  ⟨⟨"application/vnd.oci.image.config.v1+json", ⟨"sha256", "cfg"⟩, 3⟩, []⟩

/-- An environment identical to `sampleEnv` except that the manifest's config
descriptor carries the wrong media type. -/
def badTypeEnv : Env :=
  { sampleEnv with
    unmarshal := fun s =>
      if s = "manifest-json" then .ok badManifest else .error "json error" }

/-- An environment identical to `sampleEnv` except that fetching the second
layer blob fails. -/
def failEnv : Env :=
  { sampleEnv with
    resolve := fun r =>
      if r = digested layerB then .error "blob fetch failed"
      else sampleEnv.resolve r }

/-- The sample loader: per-user cache home `/home/u/.cache`, online. -/
def g0 : OciRemoteLoader := NewOCIRemoteLoader "/home/u/.cache" false

/-- Cache directory of the sample manifest digest under `g0`. -/
def sampleDir : String := "/home/u/.cache/docker-compose/d1"

/-- Composed-document path of the sample manifest digest under `g0`. -/
def sampleFile : String := "/home/u/.cache/docker-compose/d1/compose.yaml"

/-- Tail of a composed document: each remaining layer content preceded by the
separator. -/
def sepTail : List String → String
  | [] => ""
  | c :: cs => layerSep ++ (c ++ sepTail cs)

/-- A filesystem on which `os.Stat` of the sample cache directory fails with
a non-not-exist error (for example a permission error); no file exists. -/
def fs9 : FS := { emptyFS with statErr := fun p => p == sampleDir }

/-- World built on `fs9`. -/
def w9 : World := { fs := fs9, calls := [] }

/-- A filesystem on which the sample cache entry already exists. -/
def hitFS : FS :=
  { emptyFS with dirs := [sampleDir], files := [(sampleFile, "cached-doc")] }

/-- World built on `hitFS`. -/
def hitWorld : World := { fs := hitFS, calls := [] }

/-- The world after a first (cache-hit) `Load` from `hitWorld`. -/
def hitWorld2 : World := { hitWorld with calls := hitWorld.calls ++ [refStr] }

/-! ### Helper lemmas about the filesystem model -/

lemma stat_notExist {fs : FS} {p : String} (h : fs.stat p = .notExist) :
    fs.statErr p = false ∧ p ∉ fs.dirs := by
  by_cases h1 : fs.statErr p = true
  · simp [FS.stat, h1] at h
  · by_cases h2 : p ∈ fs.dirs
    · simp [FS.stat, h1, h2] at h
    · exact ⟨by simpa using h1, h2⟩

lemma stat_ok_of {fs : FS} {p : String} (h1 : fs.statErr p = false)
    (h2 : p ∈ fs.dirs) : fs.stat p = .ok := by
  simp [FS.stat, h1, h2]

lemma stat_errOther_of {fs : FS} {p : String} (h1 : fs.statErr p = true) :
    fs.stat p = .errOther := by
  simp [FS.stat, h1]

lemma mkdirAll_ok {fs : FS} {p : String} (h : fs.mkdirErr p = false) :
    fs.mkdirAll p = .ok { fs with dirs := p :: fs.dirs } := by
  simp [FS.mkdirAll, h]

lemma create_ok {fs : FS} {p : String} (h : fs.createErr p = false) :
    fs.create p = .ok { fs with files := (p, "") :: fs.files } := by
  simp [FS.create, h]

lemma write_ok {fs : FS} {p data : String}
    (h : fs.writeErr p (fs.read p).length = false) :
    fs.write p data = .ok { fs with files := (p, fs.read p ++ data) :: fs.files } := by
  simp [FS.write, h]

lemma read_cons (fs : FS) (p v : String) :
    FS.read { fs with files := (p, v) :: fs.files } p = v := by
  unfold FS.read
  rw [List.find?_cons_of_pos _ (by simp)]
  rfl

lemma hasFile_cons (fs : FS) (p v : String) :
    FS.hasFile { fs with files := (p, v) :: fs.files } p = true := by
  simp [FS.hasFile]

lemma hasFile_cons_of {fs : FS} {q : String} (h : fs.hasFile q = true)
    (p v : String) :
    FS.hasFile { fs with files := (p, v) :: fs.files } q = true := by
  unfold FS.hasFile at h ⊢
  simp [List.any_cons, h]

lemma write_inv {fs : FS} {p data : String} {fs' : FS}
    (h : fs.write p data = .ok fs') :
    fs'.dirs = fs.dirs ∧ fs'.statErr = fs.statErr ∧
    fs'.writeErr = fs.writeErr ∧
    (∀ q, fs.hasFile q = true → fs'.hasFile q = true) := by
  unfold FS.write at h
  split at h
  · exact Except.noConfusion h
  · injection h with h
    subst h
    exact ⟨rfl, rfl, rfl, fun q hq => hasFile_cons_of hq _ _⟩

/-! ### Helper lemmas about the layer-writing loop -/

lemma composeDoc_eq (c : String) (cs : List String) :
    composeDoc (c :: cs) = c ++ sepTail cs := by
  induction cs generalizing c with
  | nil => simp [composeDoc, sepTail]
  | cons d ds ih => simp [composeDoc, sepTail, ih, String.append_assoc]

lemma writeLayers_inv (env : Env) (ref file : String)
    (layers : List Descriptor) : ∀ (i : Nat) (w : World),
    (writeLayers env ref file layers i w).2.fs.dirs = w.fs.dirs ∧
    (writeLayers env ref file layers i w).2.fs.statErr = w.fs.statErr ∧
    (∀ q, w.fs.hasFile q = true →
      (writeLayers env ref file layers i w).2.fs.hasFile q = true) ∧
    (∀ q, (writeLayers env ref file layers i w).1 = .ok q → q = file) := by
  induction layers with
  | nil =>
    intro i w
    refine ⟨rfl, rfl, fun q hq => hq, fun q hq => ?_⟩
    have : LoadResult.ok file = LoadResult.ok q := hq
    cases this
    rfl
  | cons layer rest ih =>
    intro i w
    cases hd : env.withDigest ref layer.digest with
    | error e =>
      have hred : writeLayers env ref file (layer :: rest) i w = (.err e, w) := by
        simp only [writeLayers, hd]
      rw [hred]
      exact ⟨rfl, rfl, fun q hq => hq, fun q hq => by cases hq⟩
    | ok dg =>
      cases hr : env.resolve dg with
      | error e =>
        have hred : writeLayers env ref file (layer :: rest) i w
            = (.err e, { fs := w.fs, calls := w.calls ++ [dg] }) := by
          simp only [writeLayers, hd, hr]
        rw [hred]
        exact ⟨rfl, rfl, fun q hq => hq, fun q hq => by cases hq⟩
      | ok cd =>
        obtain ⟨c, dd⟩ := cd
        by_cases hi : i > 0
        · cases hsep : w.fs.write file layerSep with
          | error e =>
            have hred : writeLayers env ref file (layer :: rest) i w
                = (.err e, { fs := w.fs, calls := w.calls ++ [dg] }) := by
              simp only [writeLayers, hd, hr, hi, if_true, hsep]
            rw [hred]
            exact ⟨rfl, rfl, fun q hq => hq, fun q hq => by cases hq⟩
          | ok fs1 =>
            obtain ⟨hd1, hs1, hw1, hh1⟩ := write_inv hsep
            cases hwr : fs1.write file c with
            | error e =>
              have hred : writeLayers env ref file (layer :: rest) i w
                  = (.err e, { fs := fs1, calls := w.calls ++ [dg] }) := by
                simp only [writeLayers, hd, hr, hi, if_true, hsep, hwr]
              rw [hred]
              exact ⟨hd1, hs1, fun q hq => hh1 q hq, fun q hq => by cases hq⟩
            | ok fs2 =>
              obtain ⟨hd2, hs2, hw2, hh2⟩ := write_inv hwr
              have hred : writeLayers env ref file (layer :: rest) i w
                  = writeLayers env ref file rest (i + 1)
                      { fs := fs2, calls := w.calls ++ [dg] } := by
                simp only [writeLayers, hd, hr, hi, if_true, hsep, hwr]
              rw [hred]
              obtain ⟨ihd, ihs, ihh, iho⟩ :=
                ih (i + 1) { fs := fs2, calls := w.calls ++ [dg] }
              exact ⟨by rw [ihd]; rw [show ({ fs := fs2, calls := w.calls ++ [dg] } : World).fs = fs2 from rfl, hd2, hd1],
                by rw [ihs]; rw [show ({ fs := fs2, calls := w.calls ++ [dg] } : World).fs = fs2 from rfl, hs2, hs1],
                fun q hq => ihh q (hh2 q (hh1 q hq)), iho⟩
        · cases hwr : w.fs.write file c with
          | error e =>
            have hred : writeLayers env ref file (layer :: rest) i w
                = (.err e, { fs := w.fs, calls := w.calls ++ [dg] }) := by
              simp only [writeLayers, hd, hr, hi, if_false, hwr]
            rw [hred]
            exact ⟨rfl, rfl, fun q hq => hq, fun q hq => by cases hq⟩
          | ok fs2 =>
            obtain ⟨hd2, hs2, hw2, hh2⟩ := write_inv hwr
            have hred : writeLayers env ref file (layer :: rest) i w
                = writeLayers env ref file rest (i + 1)
                    { fs := fs2, calls := w.calls ++ [dg] } := by
              simp only [writeLayers, hd, hr, hi, if_false, hwr]
            rw [hred]
            obtain ⟨ihd, ihs, ihh, iho⟩ :=
              ih (i + 1) { fs := fs2, calls := w.calls ++ [dg] }
            exact ⟨by rw [ihd]; exact hd2, by rw [ihs]; exact hs2,
              fun q hq => ihh q (hh2 q hq), iho⟩

lemma writeLayers_ok (env : Env) (ref file : String)
    (dig cont : Descriptor → String) (layers : List Descriptor) :
    ∀ (i : Nat) (w : World),
    (∀ l ∈ layers, env.withDigest ref l.digest = .ok (dig l) ∧
      ∃ dd, env.resolve (dig l) = .ok (cont l, dd)) →
    (∀ n, w.fs.writeErr file n = false) →
    0 < i →
    (writeLayers env ref file layers i w).1 = .ok file ∧
    (writeLayers env ref file layers i w).2.calls = w.calls ++ layers.map dig ∧
    (writeLayers env ref file layers i w).2.fs.read file
      = w.fs.read file ++ sepTail (layers.map cont) := by
  induction layers with
  | nil =>
    intro i w _ _ _
    exact ⟨rfl, by simp [writeLayers], by simp [writeLayers, sepTail]⟩
  | cons layer rest ih =>
    intro i w hls hw hi
    obtain ⟨hd, dd, hr⟩ := hls layer (List.mem_cons_self _ _)
    have hsep : w.fs.write file layerSep
        = .ok { w.fs with files := (file, w.fs.read file ++ layerSep) :: w.fs.files } :=
      write_ok (hw _)
    set fs1 : FS :=
      { w.fs with files := (file, w.fs.read file ++ layerSep) :: w.fs.files } with hfs1
    have hr1 : fs1.read file = w.fs.read file ++ layerSep := read_cons _ _ _
    have hwr : fs1.write file (cont layer)
        = .ok { fs1 with files := (file, fs1.read file ++ cont layer) :: fs1.files } := by
      apply write_ok
      show w.fs.writeErr file (fs1.read file).length = false
      exact hw _
    set fs2 : FS :=
      { fs1 with files := (file, fs1.read file ++ cont layer) :: fs1.files } with hfs2
    have hred : writeLayers env ref file (layer :: rest) i w
        = writeLayers env ref file rest (i + 1)
            { fs := fs2, calls := w.calls ++ [dig layer] } := by
      simp only [writeLayers, hd, hr, hi, if_true, hsep, hwr]
    rw [hred]
    obtain ⟨iho, ihc, ihr⟩ := ih (i + 1)
      { fs := fs2, calls := w.calls ++ [dig layer] }
      (fun l hl => hls l (List.mem_cons_of_mem _ hl))
      (fun n => hw n) (Nat.succ_pos i)
    refine ⟨iho, ?_, ?_⟩
    · rw [ihc]
      simp [List.append_assoc]
    · rw [ihr]
      have : fs2.read file = (w.fs.read file ++ layerSep) ++ cont layer := by
        rw [hfs2, read_cons, hr1]
      rw [show ({ fs := fs2, calls := w.calls ++ [dig layer] } : World).fs = fs2 from rfl]
      rw [this]
      simp [sepTail, String.append_assoc]

lemma writeLayers_zero (env : Env) (ref file : String)
    (dig cont : Descriptor → String) (layers : List Descriptor) (w : World)
    (hls : ∀ l ∈ layers, env.withDigest ref l.digest = .ok (dig l) ∧
      ∃ dd, env.resolve (dig l) = .ok (cont l, dd))
    (hw : ∀ n, w.fs.writeErr file n = false)
    (h0 : w.fs.read file = "") :
    (writeLayers env ref file layers 0 w).1 = .ok file ∧
    (writeLayers env ref file layers 0 w).2.calls = w.calls ++ layers.map dig ∧
    (writeLayers env ref file layers 0 w).2.fs.read file
      = composeDoc (layers.map cont) := by
  cases layers with
  | nil => exact ⟨rfl, by simp [writeLayers], by simp [writeLayers, composeDoc, h0]⟩
  | cons layer rest =>
    obtain ⟨hd, dd, hr⟩ := hls layer (List.mem_cons_self _ _)
    have hwr : w.fs.write file (cont layer)
        = .ok { w.fs with files := (file, w.fs.read file ++ cont layer) :: w.fs.files } :=
      write_ok (hw _)
    set fs2 : FS :=
      { w.fs with files := (file, w.fs.read file ++ cont layer) :: w.fs.files } with hfs2
    have hred : writeLayers env ref file (layer :: rest) 0 w
        = writeLayers env ref file rest 1
            { fs := fs2, calls := w.calls ++ [dig layer] } := by
      simp only [writeLayers, hd, hr, lt_self_iff_false, if_false, hwr]
    rw [hred]
    obtain ⟨iho, ihc, ihr⟩ := writeLayers_ok env ref file dig cont rest 1
      { fs := fs2, calls := w.calls ++ [dig layer] }
      (fun l hl => hls l (List.mem_cons_of_mem _ hl))
      (fun n => hw n) Nat.one_pos
    refine ⟨iho, ?_, ?_⟩
    · rw [ihc]
      simp [List.append_assoc]
    · rw [ihr]
      have h2 : fs2.read file = cont layer := by
        rw [hfs2, read_cons, h0, String.empty_append]
      rw [show ({ fs := fs2, calls := w.calls ++ [dig layer] } : World).fs = fs2 from rfl]
      rw [h2, List.map_cons, composeDoc_eq]

/-! ### Master lemmas about `Load` -/

lemma load_hit (g : OciRemoteLoader) (env : Env) (w : World)
    (path ref content : String) (d : Descriptor)
    (hoff : g.offline = false)
    (hlen : scheme.length ≤ path.length)
    (hpar : env.parseDockerRef (path.drop scheme.length) = .ok ref)
    (hic : env.imageConfig = .ok ())
    (hres : env.resolve ref = .ok (content, d))
    (hstat : w.fs.stat (fjoin g.cache d.digest.hex) ≠ .notExist) :
    Load g env w path
      = (.ok (fjoin (fjoin g.cache d.digest.hex) "compose.yaml"),
         { w with calls := w.calls ++ [ref] }) := by
  have hnl : ¬ path.length < scheme.length := Nat.not_lt.mpr hlen
  cases hst : w.fs.stat (fjoin g.cache d.digest.hex) with
  | ok => simp [Load, hoff, hnl, hpar, hic, hres, hst]
  | errOther => simp [Load, hoff, hnl, hpar, hic, hres, hst]
  | notExist => exact absurd hst hstat

lemma load_miss (g : OciRemoteLoader) (env : Env) (w : World)
    (path ref content : String) (d : Descriptor) (m : Manifest)
    (dig cont : Descriptor → String)
    (hoff : g.offline = false)
    (hlen : scheme.length ≤ path.length)
    (hpar : env.parseDockerRef (path.drop scheme.length) = .ok ref)
    (hic : env.imageConfig = .ok ())
    (hres : env.resolve ref = .ok (content, d))
    (hstat : w.fs.stat (fjoin g.cache d.digest.hex) = .notExist)
    (hmk : w.fs.mkdirErr (fjoin g.cache d.digest.hex) = false)
    (hcr : w.fs.createErr (fjoin (fjoin g.cache d.digest.hex) "compose.yaml") = false)
    (hunm : env.unmarshal content = .ok m)
    (hmt : m.config.mediaType = composeMediaType)
    (hls : ∀ l ∈ m.layers, env.withDigest ref l.digest = .ok (dig l) ∧
      ∃ dd, env.resolve (dig l) = .ok (cont l, dd))
    (hw : ∀ n, w.fs.writeErr (fjoin (fjoin g.cache d.digest.hex) "compose.yaml") n
      = false) :
    (Load g env w path).1
      = .ok (fjoin (fjoin g.cache d.digest.hex) "compose.yaml") ∧
    (Load g env w path).2.calls = (w.calls ++ [ref]) ++ m.layers.map dig ∧
    (Load g env w path).2.fs.read (fjoin (fjoin g.cache d.digest.hex) "compose.yaml")
      = composeDoc (m.layers.map cont) ∧
    fjoin g.cache d.digest.hex ∈ (Load g env w path).2.fs.dirs ∧
    (Load g env w path).2.fs.hasFile
      (fjoin (fjoin g.cache d.digest.hex) "compose.yaml") = true ∧
    (Load g env w path).2.fs.statErr = w.fs.statErr := by
  have hnl : ¬ path.length < scheme.length := Nat.not_lt.mpr hlen
  set locDir := fjoin g.cache d.digest.hex with hloc
  set cf := fjoin locDir "compose.yaml" with hcf
  have hmk2 : w.fs.mkdirAll locDir
      = .ok { w.fs with dirs := locDir :: w.fs.dirs } := mkdirAll_ok hmk
  set fsA : FS := { w.fs with dirs := locDir :: w.fs.dirs } with hfsA
  have hcr2 : fsA.create cf = .ok { fsA with files := (cf, "") :: fsA.files } :=
    create_ok hcr
  set fsB : FS := { fsA with files := (cf, "") :: fsA.files } with hfsB
  have hred : Load g env w path
      = writeLayers env ref cf m.layers 0
          { fs := fsB, calls := w.calls ++ [ref] } := by
    simp [Load, hoff, hnl, hpar, hic, hres, hstat, hmk2, hcr2, hunm, hmt]
  rw [hred]
  obtain ⟨ho, hc, hr⟩ := writeLayers_zero env ref cf dig cont m.layers
    { fs := fsB, calls := w.calls ++ [ref] } hls (fun n => hw n)
    (read_cons _ _ _)
  obtain ⟨hdirs, hse, hhf, _⟩ :=
    writeLayers_inv env ref cf m.layers 0 { fs := fsB, calls := w.calls ++ [ref] }
  refine ⟨ho, hc, hr, ?_, ?_, ?_⟩
  · rw [hdirs]
    exact List.mem_cons_self _ _
  · exact hhf cf (hasFile_cons _ _ _)
  · exact hse

/-! ### Claim theorems -/

/-- C6: when the loader is constructed with the offline flag set, `Load`
returns an empty path and no error, leaving the world — filesystem and
resolver-call log — completely untouched (zero resolver calls, no parsing,
filesystem, or network work). -/
theorem load_offline (g : OciRemoteLoader) (env : Env) (w : World)
    (path : String) (hoff : g.offline = true) :
    Load g env w path = (.ok "", w) := by
  simp [Load, hoff]

/-- Witness for C6 at a concrete offline loader and reference. -/
theorem load_offline_witness :
    (NewOCIRemoteLoader "/home/u/.cache" true).offline = true ∧
    Load (NewOCIRemoteLoader "/home/u/.cache" true) sampleEnv w0 samplePath
      = (.ok "", w0) :=
  ⟨rfl, load_offline (NewOCIRemoteLoader "/home/u/.cache" true) sampleEnv w0
    samplePath rfl⟩

/-- C7: when the remainder of the reference after the scheme does not parse,
`Load` (not offline) fails with exactly the parse error and the world is
untouched: no resolver call is made. -/
theorem load_parse_error (g : OciRemoteLoader) (env : Env) (w : World)
    (path e : String)
    (hoff : g.offline = false)
    (hlen : scheme.length ≤ path.length)
    (hp : env.parseDockerRef (path.drop scheme.length) = .error e) :
    Load g env w path = (.err e, w) := by
  simp [Load, hoff, Nat.not_lt.mpr hlen, hp]

/-- Witness for C7 at a concrete malformed reference. -/
theorem load_parse_error_witness :
    g0.offline = false ∧
    scheme.length ≤ ("oci://***bad***".length) ∧
    sampleEnv.parseDockerRef ("oci://***bad***".drop scheme.length)
      = .error "parse error" ∧
    Load g0 sampleEnv w0 "oci://***bad***" = (.err "parse error", w0) :=
  ⟨rfl, by decide, rfl,
    load_parse_error g0 sampleEnv w0 "oci://***bad***" "parse error" rfl
      (by decide) rfl⟩

/-- C10: `Load` is not total over arbitrary reference strings: not offline,
any input shorter than the scheme constant makes the unconditional slice
past the scheme length panic at runtime; such an input is also rejected by
`Accept`, so `Accept path = true` is the unstated precondition. -/
theorem load_short_path_panics (g : OciRemoteLoader) (env : Env) (w : World)
    (path : String)
    (hoff : g.offline = false)
    (hlen : path.length < scheme.length) :
    Load g env w path = (.panicked, w) ∧ Accept path = false := by
  constructor
  · simp [Load, hoff, hlen]
  · have h : ¬ scheme.length ≤ path.length := Nat.not_le.mpr hlen
    simp [Accept, h]

/-- Witness for C10 at the five-character input `oci:/`. -/
theorem load_short_path_panics_witness :
    g0.offline = false ∧ "oci:/".length < scheme.length ∧
    (Load g0 sampleEnv w0 "oci:/" = (.panicked, w0) ∧ Accept "oci:/" = false) :=
  ⟨rfl, by decide, load_short_path_panics g0 sampleEnv w0 "oci:/" rfl (by decide)⟩

/-- C9: when `os.Stat` on the digest-named cache directory fails with an
error other than not-exist, `Load` takes the cache-hit path: it returns the
composed-document path with no error and an untouched filesystem — no
population at all — even though the file may not exist. -/
theorem load_stat_error_hit (g : OciRemoteLoader) (env : Env) (w : World)
    (path ref content : String) (d : Descriptor)
    (hoff : g.offline = false)
    (hlen : scheme.length ≤ path.length)
    (hpar : env.parseDockerRef (path.drop scheme.length) = .ok ref)
    (hic : env.imageConfig = .ok ())
    (hres : env.resolve ref = .ok (content, d))
    (hse : w.fs.statErr (fjoin g.cache d.digest.hex) = true) :
    Load g env w path
      = (.ok (fjoin (fjoin g.cache d.digest.hex) "compose.yaml"),
         { w with calls := w.calls ++ [ref] }) :=
  load_hit g env w path ref content d hoff hlen hpar hic hres
    (by simp [stat_errOther_of hse])

/-- Witness for C9: a permission-style stat error on the entry directory,
with no composed file on disk at all. -/
theorem load_stat_error_hit_witness :
    fs9.statErr sampleDir = true ∧
    fs9.hasFile sampleFile = false ∧
    Load g0 sampleEnv w9 samplePath
      = (.ok (fjoin (fjoin g0.cache manifestDigest.hex) "compose.yaml"),
         { w9 with calls := w9.calls ++ [refStr] }) :=
  ⟨by decide, by decide,
    load_stat_error_hit g0 sampleEnv w9 samplePath refStr "manifest-json"
      ⟨"application/vnd.oci.image.manifest.v1+json", manifestDigest, 99⟩
      rfl (by decide) rfl rfl rfl (by decide)⟩

/-- C2: when the digest-named cache directory exists, `Load` returns the
composed-document path inside it with no error, leaves the filesystem
untouched (no verification of the existing file, no layer fetches), and the
resolver-call log grows by exactly the manifest fetch — the manifest is
fetched even on a hit. -/
theorem load_cache_hit (g : OciRemoteLoader) (env : Env) (w : World)
    (path ref content : String) (d : Descriptor)
    (hoff : g.offline = false)
    (hlen : scheme.length ≤ path.length)
    (hpar : env.parseDockerRef (path.drop scheme.length) = .ok ref)
    (hic : env.imageConfig = .ok ())
    (hres : env.resolve ref = .ok (content, d))
    (hse : w.fs.statErr (fjoin g.cache d.digest.hex) = false)
    (hmem : fjoin g.cache d.digest.hex ∈ w.fs.dirs) :
    Load g env w path
      = (.ok (fjoin (fjoin g.cache d.digest.hex) "compose.yaml"),
         { w with calls := w.calls ++ [ref] }) :=
  load_hit g env w path ref content d hoff hlen hpar hic hres
    (by simp [stat_ok_of hse hmem])

/-- Witness for C2: a pre-existing entry directory with a stale file is
served untouched, with exactly one resolver call (the manifest). -/
theorem load_cache_hit_witness :
    hitFS.stat sampleDir = .ok ∧
    hitFS.read sampleFile = "cached-doc" ∧
    Load g0 sampleEnv hitWorld samplePath
      = (.ok (fjoin (fjoin g0.cache manifestDigest.hex) "compose.yaml"),
         { hitWorld with calls := hitWorld.calls ++ [refStr] }) :=
  ⟨by decide, by decide,
    load_cache_hit g0 sampleEnv hitWorld samplePath refStr "manifest-json"
      ⟨"application/vnd.oci.image.manifest.v1+json", manifestDigest, 99⟩
      rfl (by decide) rfl rfl rfl (by decide) (by decide)⟩

/-- C1: on a cache miss that completes successfully, the composed document
written by `Load` is the concatenation of the layer contents in the
manifest's declared order with the fixed separator `"\n---\n"` between
consecutive layers only (`composeDoc`: no separator before the first or
after the last, so one layer yields its raw content verbatim), and the
layer blobs are fetched in declared order after the manifest. -/
theorem load_composes_layers (g : OciRemoteLoader) (env : Env) (w : World)
    (path ref content : String) (d : Descriptor) (m : Manifest)
    (dig cont : Descriptor → String)
    (hoff : g.offline = false)
    (hlen : scheme.length ≤ path.length)
    (hpar : env.parseDockerRef (path.drop scheme.length) = .ok ref)
    (hic : env.imageConfig = .ok ())
    (hres : env.resolve ref = .ok (content, d))
    (hstat : w.fs.stat (fjoin g.cache d.digest.hex) = .notExist)
    (hmk : w.fs.mkdirErr (fjoin g.cache d.digest.hex) = false)
    (hcr : w.fs.createErr (fjoin (fjoin g.cache d.digest.hex) "compose.yaml") = false)
    (hunm : env.unmarshal content = .ok m)
    (hmt : m.config.mediaType = composeMediaType)
    (hls : ∀ l ∈ m.layers, env.withDigest ref l.digest = .ok (dig l) ∧
      ∃ dd, env.resolve (dig l) = .ok (cont l, dd))
    (hw : ∀ n, w.fs.writeErr (fjoin (fjoin g.cache d.digest.hex) "compose.yaml") n
      = false) :
    (Load g env w path).1
      = .ok (fjoin (fjoin g.cache d.digest.hex) "compose.yaml") ∧
    (Load g env w path).2.fs.read (fjoin (fjoin g.cache d.digest.hex) "compose.yaml")
      = composeDoc (m.layers.map cont) ∧
    (Load g env w path).2.calls = (w.calls ++ [ref]) ++ m.layers.map dig := by
  obtain ⟨h1, h2, h3, _, _, _⟩ := load_miss g env w path ref content d m dig cont
    hoff hlen hpar hic hres hstat hmk hcr hunm hmt hls hw
  exact ⟨h1, h3, h2⟩

/-- Witness for C1 at the spec's concrete scenario: two layers compose to
the expected document with exactly one separator between them. -/
theorem load_composes_layers_witness :
    ((Load g0 sampleEnv w0 samplePath).1
        = .ok (fjoin (fjoin g0.cache manifestDigest.hex) "compose.yaml") ∧
      (Load g0 sampleEnv w0 samplePath).2.fs.read
          (fjoin (fjoin g0.cache manifestDigest.hex) "compose.yaml")
        = composeDoc (sampleManifest.layers.map layerContent) ∧
      (Load g0 sampleEnv w0 samplePath).2.calls
        = (w0.calls ++ [refStr]) ++ sampleManifest.layers.map digested) ∧
    composeDoc (sampleManifest.layers.map layerContent)
      = "services:\n  a:\n    image: x\n\n---\nservices:\n  b:\n    image: y\n" :=
  ⟨load_composes_layers g0 sampleEnv w0 samplePath refStr "manifest-json"
      ⟨"application/vnd.oci.image.manifest.v1+json", manifestDigest, 99⟩
      sampleManifest digested layerContent
      rfl (by decide) rfl rfl rfl (by decide) rfl rfl rfl rfl
      (by
        intro l hl
        have hl2 : l ∈ [layerA, layerB] := hl
        rcases List.mem_cons.mp hl2 with h | hl3
        · subst h
          exact ⟨rfl, layerA, rfl⟩
        · rcases List.mem_cons.mp hl3 with h | hl4
          · subst h
            exact ⟨rfl, layerB, rfl⟩
          · cases hl4)
      (fun _ => rfl),
    by decide⟩

/-- Counterexample for C3: a media-type mismatch does fail `Load`, but a
reusable cache entry does result — the digest-named directory (holding an
empty compose file) was created before the check, so a second `Load` of the
same reference observes a cache hit produced by the failed attempt. -/
theorem load_mismatch_counterexample :
    (Load g0 badTypeEnv w0 samplePath).1
      = .err "registry.example/app:v1 is not a compose project OCI artifact, but application/vnd.oci.image.config.v1+json" ∧
    sampleDir ∈ (Load g0 badTypeEnv w0 samplePath).2.fs.dirs ∧
    (Load g0 badTypeEnv (Load g0 badTypeEnv w0 samplePath).2 samplePath).1
      = .ok sampleFile ∧
    (Load g0 badTypeEnv w0 samplePath).2.fs.read sampleFile = "" := by
  decide

/-- C3 amended: a manifest whose config media type is not the expected fixed
value makes `Load` fail with a descriptive error naming the offending media
type; however the digest-named directory created before the check remains,
so a subsequent `Load` of the same reference observes a cache hit (returning
the path of the empty composed file with one further manifest fetch). -/
theorem load_mediatype_mismatch (g : OciRemoteLoader) (env : Env) (w : World)
    (path ref content : String) (d : Descriptor) (m : Manifest)
    (hoff : g.offline = false)
    (hlen : scheme.length ≤ path.length)
    (hpar : env.parseDockerRef (path.drop scheme.length) = .ok ref)
    (hic : env.imageConfig = .ok ())
    (hres : env.resolve ref = .ok (content, d))
    (hstat : w.fs.stat (fjoin g.cache d.digest.hex) = .notExist)
    (hmk : w.fs.mkdirErr (fjoin g.cache d.digest.hex) = false)
    (hcr : w.fs.createErr (fjoin (fjoin g.cache d.digest.hex) "compose.yaml") = false)
    (hunm : env.unmarshal content = .ok m)
    (hmt : m.config.mediaType ≠ composeMediaType) :
    (Load g env w path).1
      = .err (ref ++ " is not a compose project OCI artifact, but "
          ++ m.config.mediaType) ∧
    fjoin g.cache d.digest.hex ∈ (Load g env w path).2.fs.dirs ∧
    Load g env (Load g env w path).2 path
      = (.ok (fjoin (fjoin g.cache d.digest.hex) "compose.yaml"),
         { (Load g env w path).2 with
           calls := (Load g env w path).2.calls ++ [ref] }) := by
  have hnl : ¬ path.length < scheme.length := Nat.not_lt.mpr hlen
  set locDir := fjoin g.cache d.digest.hex with hloc
  set cf := fjoin locDir "compose.yaml" with hcf
  have hmk2 : w.fs.mkdirAll locDir
      = .ok { w.fs with dirs := locDir :: w.fs.dirs } := mkdirAll_ok hmk
  set fsA : FS := { w.fs with dirs := locDir :: w.fs.dirs } with hfsA
  have hcr2 : fsA.create cf = .ok { fsA with files := (cf, "") :: fsA.files } :=
    create_ok hcr
  set fsB : FS := { fsA with files := (cf, "") :: fsA.files } with hfsB
  obtain ⟨hseF, _⟩ := stat_notExist hstat
  have hred : Load g env w path
      = (.err (ref ++ " is not a compose project OCI artifact, but "
            ++ m.config.mediaType),
         { fs := fsB, calls := w.calls ++ [ref] }) := by
    simp [Load, hoff, hnl, hpar, hic, hres, hstat, hmk2, hcr2, hunm, hmt]
  rw [hred]
  refine ⟨rfl, List.mem_cons_self _ _, ?_⟩
  exact load_hit g env { fs := fsB, calls := w.calls ++ [ref] } path ref content d
    hoff hlen hpar hic hres
    (by simp [stat_ok_of (show fsB.statErr locDir = false from hseF)
      (List.mem_cons_self _ _)])

/-- Witness for C3 at the concrete mismatching environment. -/
theorem load_mediatype_mismatch_witness :
    badManifest.config.mediaType ≠ composeMediaType ∧
    ((Load g0 badTypeEnv w0 samplePath).1
        = .err (refStr ++ " is not a compose project OCI artifact, but "
            ++ badManifest.config.mediaType) ∧
      fjoin g0.cache manifestDigest.hex
        ∈ (Load g0 badTypeEnv w0 samplePath).2.fs.dirs ∧
      Load g0 badTypeEnv (Load g0 badTypeEnv w0 samplePath).2 samplePath
        = (.ok (fjoin (fjoin g0.cache manifestDigest.hex) "compose.yaml"),
           { (Load g0 badTypeEnv w0 samplePath).2 with
             calls := (Load g0 badTypeEnv w0 samplePath).2.calls ++ [refStr] })) :=
  ⟨by decide,
    load_mediatype_mismatch g0 badTypeEnv w0 samplePath refStr "manifest-json"
      ⟨"application/vnd.oci.image.manifest.v1+json", manifestDigest, 99⟩
      badManifest rfl (by decide) rfl rfl rfl (by decide) rfl rfl rfl (by decide)⟩

/-- C5: a `Load` that fails after the digest directory and the composed file
were created (manifest decode failure, media-type mismatch, or any failure
inside the layer loop) leaves both on disk, and a later `Load` for the same
manifest digest observes them as a cache hit indistinguishable from a
complete entry: it returns the composed-file path with no error and only
the manifest fetch. -/
theorem load_partial_failure_then_hit (g : OciRemoteLoader) (env : Env)
    (w : World) (path ref content e : String) (d : Descriptor)
    (hoff : g.offline = false)
    (hlen : scheme.length ≤ path.length)
    (hpar : env.parseDockerRef (path.drop scheme.length) = .ok ref)
    (hic : env.imageConfig = .ok ())
    (hres : env.resolve ref = .ok (content, d))
    (hstat : w.fs.stat (fjoin g.cache d.digest.hex) = .notExist)
    (hmk : w.fs.mkdirErr (fjoin g.cache d.digest.hex) = false)
    (hcr : w.fs.createErr (fjoin (fjoin g.cache d.digest.hex) "compose.yaml") = false)
    (_hfail : (Load g env w path).1 = .err e) :
    fjoin g.cache d.digest.hex ∈ (Load g env w path).2.fs.dirs ∧
    (Load g env w path).2.fs.hasFile
      (fjoin (fjoin g.cache d.digest.hex) "compose.yaml") = true ∧
    Load g env (Load g env w path).2 path
      = (.ok (fjoin (fjoin g.cache d.digest.hex) "compose.yaml"),
         { (Load g env w path).2 with
           calls := (Load g env w path).2.calls ++ [ref] }) := by
  have hnl : ¬ path.length < scheme.length := Nat.not_lt.mpr hlen
  set locDir := fjoin g.cache d.digest.hex with hloc
  set cf := fjoin locDir "compose.yaml" with hcf
  have hmk2 : w.fs.mkdirAll locDir
      = .ok { w.fs with dirs := locDir :: w.fs.dirs } := mkdirAll_ok hmk
  set fsA : FS := { w.fs with dirs := locDir :: w.fs.dirs } with hfsA
  have hcr2 : fsA.create cf = .ok { fsA with files := (cf, "") :: fsA.files } :=
    create_ok hcr
  set fsB : FS := { fsA with files := (cf, "") :: fsA.files } with hfsB
  obtain ⟨hseF, _⟩ := stat_notExist hstat
  cases hunm : env.unmarshal content with
  | error e2 =>
    have hred : Load g env w path
        = (.err e2, { fs := fsB, calls := w.calls ++ [ref] }) := by
      simp [Load, hoff, hnl, hpar, hic, hres, hstat, hmk2, hcr2, hunm]
    rw [hred]
    refine ⟨List.mem_cons_self _ _, hasFile_cons _ _ _, ?_⟩
    exact load_hit g env { fs := fsB, calls := w.calls ++ [ref] } path ref content d
      hoff hlen hpar hic hres
      (by simp [stat_ok_of (show fsB.statErr locDir = false from hseF)
        (List.mem_cons_self _ _)])
  | ok m =>
    by_cases hmt : m.config.mediaType = composeMediaType
    · have hred : Load g env w path
          = writeLayers env ref cf m.layers 0
              { fs := fsB, calls := w.calls ++ [ref] } := by
        simp [Load, hoff, hnl, hpar, hic, hres, hstat, hmk2, hcr2, hunm, hmt]
      rw [hred]
      obtain ⟨hdirs, hse, hhf, _⟩ := writeLayers_inv env ref cf m.layers 0
        { fs := fsB, calls := w.calls ++ [ref] }
      refine ⟨?_, ?_, ?_⟩
      · rw [hdirs]
        exact List.mem_cons_self _ _
      · exact hhf cf (hasFile_cons _ _ _)
      · refine load_hit g env _ path ref content d hoff hlen hpar hic hres ?_
        have hstat2 : (writeLayers env ref cf m.layers 0
            { fs := fsB, calls := w.calls ++ [ref] }).2.fs.stat locDir = .ok := by
          apply stat_ok_of
          · rw [hse]
            exact hseF
          · rw [hdirs]
            exact List.mem_cons_self _ _
        simp [hstat2]
    · have hred : Load g env w path
          = (.err (ref ++ " is not a compose project OCI artifact, but "
                ++ m.config.mediaType),
             { fs := fsB, calls := w.calls ++ [ref] }) := by
        simp [Load, hoff, hnl, hpar, hic, hres, hstat, hmk2, hcr2, hunm, hmt]
      rw [hred]
      refine ⟨List.mem_cons_self _ _, hasFile_cons _ _ _, ?_⟩
      exact load_hit g env { fs := fsB, calls := w.calls ++ [ref] } path ref content d
        hoff hlen hpar hic hres
        (by simp [stat_ok_of (show fsB.statErr locDir = false from hseF)
          (List.mem_cons_self _ _)])

/-- Witness for C5: the second layer's blob fetch fails after the first
layer was written; the incomplete single-layer file is then served as a
cache hit. -/
theorem load_partial_failure_then_hit_witness :
    (Load g0 failEnv w0 samplePath).1 = .err "blob fetch failed" ∧
    (Load g0 failEnv w0 samplePath).2.fs.read sampleFile = contentA ∧
    (fjoin g0.cache manifestDigest.hex ∈ (Load g0 failEnv w0 samplePath).2.fs.dirs ∧
      (Load g0 failEnv w0 samplePath).2.fs.hasFile
        (fjoin (fjoin g0.cache manifestDigest.hex) "compose.yaml") = true ∧
      Load g0 failEnv (Load g0 failEnv w0 samplePath).2 samplePath
        = (.ok (fjoin (fjoin g0.cache manifestDigest.hex) "compose.yaml"),
           { (Load g0 failEnv w0 samplePath).2 with
             calls := (Load g0 failEnv w0 samplePath).2.calls ++ [refStr] })) :=
  ⟨by decide, by decide,
    load_partial_failure_then_hit g0 failEnv w0 samplePath refStr "manifest-json"
      "blob fetch failed"
      ⟨"application/vnd.oci.image.manifest.v1+json", manifestDigest, 99⟩
      rfl (by decide) rfl rfl rfl (by decide) rfl rfl (by decide)⟩

/-- Counterexample for C4: after one successful `Load` of the fixed sample
reference, a second `Load` returns the identical path but issues one
additional resolver call (the manifest fetch), not zero: the resolver-call
log grows from three entries to four. -/
theorem load_idempotent_counterexample :
    (Load g0 sampleEnv w0 samplePath).1 = .ok sampleFile ∧
    (Load g0 sampleEnv (Load g0 sampleEnv w0 samplePath).2 samplePath).1
      = .ok sampleFile ∧
    (Load g0 sampleEnv w0 samplePath).2.calls.length = 3 ∧
    (Load g0 sampleEnv (Load g0 sampleEnv w0 samplePath).2 samplePath).2.calls.length
      = 4 := by
  decide

/-- C4 amended: `Load` is idempotent up to the unconditional manifest fetch:
after one successful call, a second call with the same reference returns the
identical local path and issues exactly one additional resolver call — the
manifest fetch — with no layer fetches and no filesystem change. -/
theorem load_idempotent_one_fetch (g : OciRemoteLoader) (env : Env) (w : World)
    (path ref content p : String) (d : Descriptor) (w1 : World)
    (hoff : g.offline = false)
    (hlen : scheme.length ≤ path.length)
    (hpar : env.parseDockerRef (path.drop scheme.length) = .ok ref)
    (hic : env.imageConfig = .ok ())
    (hres : env.resolve ref = .ok (content, d))
    (h1 : Load g env w path = (.ok p, w1)) :
    p = fjoin (fjoin g.cache d.digest.hex) "compose.yaml" ∧
    Load g env w1 path = (.ok p, { w1 with calls := w1.calls ++ [ref] }) := by
  have hnl : ¬ path.length < scheme.length := Nat.not_lt.mpr hlen
  set locDir := fjoin g.cache d.digest.hex with hloc
  set cf := fjoin locDir "compose.yaml" with hcf
  cases hstat : w.fs.stat locDir with
  | ok =>
    have h2 : Load g env w path = (.ok cf, { w with calls := w.calls ++ [ref] }) :=
      load_hit g env w path ref content d hoff hlen hpar hic hres (by simp [hstat])
    rw [h2] at h1
    have hp : cf = p := by simpa using congrArg Prod.fst h1
    have hw1 : ({ w with calls := w.calls ++ [ref] } : World) = w1 :=
      congrArg Prod.snd h1
    subst hw1
    refine ⟨hp.symm, ?_⟩
    rw [← hp]
    exact load_hit g env _ path ref content d hoff hlen hpar hic hres
      (by simp [show ({ w with calls := w.calls ++ [ref] } : World).fs.stat locDir
        = .ok from hstat])
  | errOther =>
    have h2 : Load g env w path = (.ok cf, { w with calls := w.calls ++ [ref] }) :=
      load_hit g env w path ref content d hoff hlen hpar hic hres (by simp [hstat])
    rw [h2] at h1
    have hp : cf = p := by simpa using congrArg Prod.fst h1
    have hw1 : ({ w with calls := w.calls ++ [ref] } : World) = w1 :=
      congrArg Prod.snd h1
    subst hw1
    refine ⟨hp.symm, ?_⟩
    rw [← hp]
    exact load_hit g env _ path ref content d hoff hlen hpar hic hres
      (by simp [show ({ w with calls := w.calls ++ [ref] } : World).fs.stat locDir
        = .errOther from hstat])
  | notExist =>
    obtain ⟨hseF, _⟩ := stat_notExist hstat
    by_cases hmk : w.fs.mkdirErr locDir = true
    · have hred : Load g env w path
          = (.err "mkdir error", { w with calls := w.calls ++ [ref] }) := by
        simp [Load, hoff, hnl, hpar, hic, hres, hstat, FS.mkdirAll, hmk]
      rw [hred] at h1
      exact absurd (congrArg Prod.fst h1) (by simp)
    · have hmk' : w.fs.mkdirErr locDir = false := by simpa using hmk
      have hmk2 : w.fs.mkdirAll locDir
          = .ok { w.fs with dirs := locDir :: w.fs.dirs } := mkdirAll_ok hmk'
      set fsA : FS := { w.fs with dirs := locDir :: w.fs.dirs } with hfsA
      by_cases hcrb : fsA.createErr cf = true
      · have hcrb2 : w.fs.createErr cf = true := hcrb
        have hred : Load g env w path
            = (.err "create error", { fs := fsA, calls := w.calls ++ [ref] }) := by
          simp [Load, hoff, hnl, hpar, hic, hres, hstat, hmk2, FS.create, hcrb2]
        rw [hred] at h1
        exact absurd (congrArg Prod.fst h1) (by simp)
      · have hcr' : fsA.createErr cf = false := by simpa using hcrb
        have hcr2 : fsA.create cf = .ok { fsA with files := (cf, "") :: fsA.files } :=
          create_ok hcr'
        set fsB : FS := { fsA with files := (cf, "") :: fsA.files } with hfsB
        cases hunm : env.unmarshal content with
        | error e2 =>
          have hred : Load g env w path
              = (.err e2, { fs := fsB, calls := w.calls ++ [ref] }) := by
            simp [Load, hoff, hnl, hpar, hic, hres, hstat, hmk2, hcr2, hunm]
          rw [hred] at h1
          exact absurd (congrArg Prod.fst h1) (by simp)
        | ok m =>
          by_cases hmt : m.config.mediaType = composeMediaType
          · have hred : Load g env w path
                = writeLayers env ref cf m.layers 0
                    { fs := fsB, calls := w.calls ++ [ref] } := by
              simp [Load, hoff, hnl, hpar, hic, hres, hstat, hmk2, hcr2, hunm, hmt]
            rw [hred] at h1
            obtain ⟨hdirs, hse, _, hok⟩ := writeLayers_inv env ref cf m.layers 0
              { fs := fsB, calls := w.calls ++ [ref] }
            have hp : p = cf := hok p (congrArg Prod.fst h1)
            have hw1 : (writeLayers env ref cf m.layers 0
                { fs := fsB, calls := w.calls ++ [ref] }).2 = w1 :=
              congrArg Prod.snd h1
            refine ⟨hp, ?_⟩
            rw [hp]
            refine load_hit g env w1 path ref content d hoff hlen hpar hic hres ?_
            have hst2 : w1.fs.stat locDir = .ok := by
              rw [← hw1]
              refine stat_ok_of ?_ ?_
              · rw [hse]
                exact hseF
              · rw [hdirs]
                exact List.mem_cons_self _ _
            simp [hst2]
          · have hred : Load g env w path
                = (.err (ref ++ " is not a compose project OCI artifact, but "
                      ++ m.config.mediaType),
                   { fs := fsB, calls := w.calls ++ [ref] }) := by
              simp [Load, hoff, hnl, hpar, hic, hres, hstat, hmk2, hcr2, hunm, hmt]
            rw [hred] at h1
            exact absurd (congrArg Prod.fst h1) (by simp)

/-- Witness for C4 amended: a second call from the post-hit world returns
the same path with exactly one appended resolver call. -/
theorem load_idempotent_one_fetch_witness :
    sampleFile = fjoin (fjoin g0.cache manifestDigest.hex) "compose.yaml" ∧
    Load g0 sampleEnv hitWorld2 samplePath
      = (.ok sampleFile, { hitWorld2 with calls := hitWorld2.calls ++ [refStr] }) :=
  load_idempotent_one_fetch g0 sampleEnv hitWorld samplePath refStr
    "manifest-json" sampleFile
    ⟨"application/vnd.oci.image.manifest.v1+json", manifestDigest, 99⟩
    hitWorld2 rfl (by decide) rfl rfl rfl rfl

lemma dirChars_append (l t : List Char) (ht : '/' ∉ t) :
    dirChars (l ++ '/' :: t) = l := by
  induction l with
  | nil => simp [dirChars, ht]
  | cons c cs ih => simp [dirChars, ih]

lemma cacheRoot_eq (cacheHome : String) (off : Bool) :
    (NewOCIRemoteLoader cacheHome off).cache = cacheHome ++ "/docker-compose" := by
  apply String.ext
  show dirChars ((cacheHome ++ "/" ++ ("docker-compose" ++ "/" ++ "oci")).data)
      = (cacheHome ++ "/docker-compose").data
  rw [String.data_append, String.data_append, String.data_append,
    String.data_append, String.data_append]
  rw [show ("/" : String).data = ['/'] from rfl]
  rw [show ("/docker-compose" : String).data
    = '/' :: ("docker-compose" : String).data from rfl]
  have h := dirChars_append (cacheHome.data ++ ['/'] ++ ("docker-compose" : String).data)
    ("oci" : String).data (by decide)
  calc dirChars (cacheHome.data ++ ['/']
        ++ (("docker-compose" : String).data ++ ['/'] ++ ("oci" : String).data))
      = dirChars ((cacheHome.data ++ ['/'] ++ ("docker-compose" : String).data)
        ++ '/' :: ("oci" : String).data) := by
        simp [List.append_assoc]
    _ = cacheHome.data ++ ['/'] ++ ("docker-compose" : String).data := h
    _ = cacheHome.data ++ '/' :: ("docker-compose" : String).data := by
        simp [List.append_assoc]

/-- Counterexample for C8: the directory created by a successful cache-miss
`Load` contains no scheme-name (`oci`) component at all — `filepath.Dir`
chops the `oci` filename off again — so the entry does not live at
`cache-root/scheme-name/digest-hex`. -/
theorem cache_layout_counterexample :
    (Load g0 sampleEnv w0 samplePath).2.fs.dirs = [sampleDir] ∧
    ¬ ("oci".data <:+: sampleDir.data) ∧
    sampleDir ≠ "/home/u/.cache/docker-compose/oci/d1" := by
  decide

/-- C8 amended: the loader's cache root is the per-user cache home joined
with `docker-compose` only — the scheme name `oci` is passed as a throwaway
filename and removed again by `filepath.Dir` — and a successful cache-miss
`Load` creates exactly `cacheRoot/hex(manifestDigest)` and returns the file
named `compose.yaml` inside it. -/
theorem load_cache_layout (cacheHome : String) (env : Env) (w : World)
    (path ref content : String) (d : Descriptor) (m : Manifest)
    (dig cont : Descriptor → String)
    (hlen : scheme.length ≤ path.length)
    (hpar : env.parseDockerRef (path.drop scheme.length) = .ok ref)
    (hic : env.imageConfig = .ok ())
    (hres : env.resolve ref = .ok (content, d))
    (hstat : w.fs.stat (fjoin (NewOCIRemoteLoader cacheHome false).cache
      d.digest.hex) = .notExist)
    (hmk : w.fs.mkdirErr (fjoin (NewOCIRemoteLoader cacheHome false).cache
      d.digest.hex) = false)
    (hcr : w.fs.createErr (fjoin (fjoin (NewOCIRemoteLoader cacheHome false).cache
      d.digest.hex) "compose.yaml") = false)
    (hunm : env.unmarshal content = .ok m)
    (hmt : m.config.mediaType = composeMediaType)
    (hls : ∀ l ∈ m.layers, env.withDigest ref l.digest = .ok (dig l) ∧
      ∃ dd, env.resolve (dig l) = .ok (cont l, dd))
    (hw : ∀ n, w.fs.writeErr (fjoin (fjoin (NewOCIRemoteLoader cacheHome false).cache
      d.digest.hex) "compose.yaml") n = false) :
    (NewOCIRemoteLoader cacheHome false).cache = cacheHome ++ "/docker-compose" ∧
    (Load (NewOCIRemoteLoader cacheHome false) env w path).1
      = .ok (fjoin (fjoin (cacheHome ++ "/docker-compose") d.digest.hex)
          "compose.yaml") ∧
    fjoin (cacheHome ++ "/docker-compose") d.digest.hex
      ∈ (Load (NewOCIRemoteLoader cacheHome false) env w path).2.fs.dirs ∧
    (Load (NewOCIRemoteLoader cacheHome false) env w path).2.fs.hasFile
      (fjoin (fjoin (cacheHome ++ "/docker-compose") d.digest.hex)
        "compose.yaml") = true := by
  have hc : (NewOCIRemoteLoader cacheHome false).cache
      = cacheHome ++ "/docker-compose" := cacheRoot_eq cacheHome false
  obtain ⟨h1, _, _, h4, h5, _⟩ := load_miss (NewOCIRemoteLoader cacheHome false)
    env w path ref content d m dig cont rfl hlen hpar hic hres hstat hmk hcr
    hunm hmt hls hw
  refine ⟨hc, ?_, ?_, ?_⟩
  · rw [← hc]
    exact h1
  · rw [← hc]
    exact h4
  · rw [← hc]
    exact h5

/-- Witness for C8 amended at the concrete sample run. -/
theorem load_cache_layout_witness :
    ((NewOCIRemoteLoader "/home/u/.cache" false).cache
        = "/home/u/.cache" ++ "/docker-compose" ∧
      (Load (NewOCIRemoteLoader "/home/u/.cache" false) sampleEnv w0 samplePath).1
        = .ok (fjoin (fjoin ("/home/u/.cache" ++ "/docker-compose")
            manifestDigest.hex) "compose.yaml") ∧
      fjoin ("/home/u/.cache" ++ "/docker-compose") manifestDigest.hex
        ∈ (Load (NewOCIRemoteLoader "/home/u/.cache" false) sampleEnv w0
            samplePath).2.fs.dirs ∧
      (Load (NewOCIRemoteLoader "/home/u/.cache" false) sampleEnv w0
          samplePath).2.fs.hasFile
        (fjoin (fjoin ("/home/u/.cache" ++ "/docker-compose")
          manifestDigest.hex) "compose.yaml") = true) ∧
    fjoin ("/home/u/.cache" ++ "/docker-compose") manifestDigest.hex = sampleDir :=
  ⟨load_cache_layout "/home/u/.cache" sampleEnv w0 samplePath refStr
      "manifest-json"
      ⟨"application/vnd.oci.image.manifest.v1+json", manifestDigest, 99⟩
      sampleManifest digested layerContent
      (by decide) rfl rfl rfl (by decide) rfl rfl rfl rfl
      (by
        intro l hl
        have hl2 : l ∈ [layerA, layerB] := hl
        rcases List.mem_cons.mp hl2 with h | hl3
        · subst h
          exact ⟨rfl, layerA, rfl⟩
        · rcases List.mem_cons.mp hl3 with h | hl4
          · subst h
            exact ⟨rfl, layerB, rfl⟩
          · cases hl4)
      (fun _ => rfl),
    by decide⟩
